import Mathlib

/-!
Shallow embedding of `ckanext/ottawa/gis_import.py` (CityofOttawa/ckanext-ottawa).

The script synchronizes GIS source files into CKAN dataset resources.  We model:

* naive datetimes as `Int` (the Python code strips `tzinfo` before every
  comparison, so a single linear order suffices);
* the network and the remote CKAN repository as an environment of functions
  (`Env`), since the script treats them as opaque services;
* side effects (HTTP requests, CKAN API calls, log lines, archive creation)
  as an explicit trace of `Event`s;
* the local filesystem as an association list from paths (component lists)
  to file contents;
* Python exceptions as `Except PyErr`: in particular the `KeyError`-then-
  `return date_modified` path of `get_import_file_date` hits an unbound local
  variable, modelled as `PyErr.unboundLocal`.
-/

set_option autoImplicit false

namespace GisImport

inductive LogLevel where
  | info
  | warning
  | error
deriving DecidableEq, Repr

/-- A CKAN resource record.  `last_modified` / `created` are the stored
timestamps, parsed to naive datetimes; `none` models an absent or falsy
(empty / null) stored value, so that Python's `if resource['last_modified']:`
truth test becomes an `Option` match. -/
structure Resource where
  name : String
  format : String
  url : String
  last_modified : Option Int
  created : Option Int
deriving DecidableEq, Repr

/-- A CKAN package (dataset) as returned by `package_show`. -/
structure Package where
  id : String
  name : String
  resources : List Resource
deriving DecidableEq, Repr

/-- Result of `requests.head(url)`: the HTTP status code, and the
`last-modified` header already parsed (`dateutil.parser.parse` followed by
`.replace(tzinfo=None)`) when the header is present and parseable. -/
structure HeadResponse where
  status_code : Nat
  lastModified : Option Int
deriving DecidableEq, Repr

/-- The Python exceptions the script can raise. -/
inductive PyErr where
  | unboundLocal
  | keyError (k : String)
  | indexError
  | typeError
  | attributeError
deriving DecidableEq, Repr

/-- A filesystem path, as its `/`-separated components. -/
abbrev Path := List String

/-- An entry of a zip archive: a regular file (arcname and content), or a
directory entry.  `zipfile.ZipFile.write(path, arcname)` on a regular file
adds a `file` entry; the script never writes directory entries. -/
inductive ZipEntry where
  | file (arcname : String) (content : String)
  | dir (arcname : String)
deriving DecidableEq, Repr

/-- The local filesystem: the regular files present, with their contents. -/
abbrev FS := List (Path × String)

/-- One observable side effect of a run. -/
inductive Event where
  | packageShow (id : String)
  | logged (lvl : LogLevel) (msg : String)
  | resourceCreate (package_id url format name : String) (last_modified : Int)
  | headRequest (url : String)
  | getRequest (url : String)
  | zipCreate (path : Path) (entries : List ZipEntry)
  | resourceUpdate (resource : Resource) (filename : String)
deriving DecidableEq, Repr

/-- A value of the YAML mapping for one format: a plain path, or (for the
bundle format `shp`) a nested map of sub-format to path. -/
inductive MappingValue where
  | single (path : String)
  | submap (entries : List (String × String))
deriving DecidableEq, Repr

/-- A dataset's mapping entry: format name to mapping value, in YAML order. -/
abbrev Mapping := List (String × MappingValue)

/-- Python `d[k]` on a string-keyed dict, as an association-list lookup. -/
def lookupKey {α : Type} (m : List (String × α)) (k : String) : Option α :=
  (m.find? (fun e => e.1 == k)).map (fun e => e.2)

/-- Python's `str.lower()` (character-wise lowering). -/
def lower (s : String) : String := ⟨s.data.map Char.toLower⟩

/-- The process environment: the module-level globals of the script together
with the opaque external services (CKAN client, HTTP). -/
structure Env where
  /-- `ckan.action.package_show`: `none` models `ckanapi.errors.NotFound`. -/
  pkgs : String → Option Package
  /-- `requests.head`. -/
  head : String → HeadResponse
  /-- `requests.get` for downloads: `some body` iff the status code is 200. -/
  get : String → Option String
  /-- `ckan.action.resource_update` outcome, keyed by resource name:
  `some msg` models a raised `CKANAPIError` with message `msg`. -/
  updErr : String → Option String
  /-- global `base_import_url` (`GIS_REPO`). -/
  base_import_url : String
  /-- global `force` (`--force`). -/
  force : Bool
  /-- global `debug` (`--dry-run`). -/
  debug : Bool
  /-- `datetime.now()`, a naive datetime. -/
  now : Int

/-- String rendering of a Python dict, only reachable when a non-bundle
format maps to a nested dict and its repr is spliced into the URL; the
encoding is opaque (never inspected). -/
def MappingValue.asPathString : MappingValue → String
  | .single p => p
  | .submap es => toString (repr es)

/-- Lines 100-108: `get_import_url(resource, mapping)`.
`mapping[resource['format'].lower()]` raises `KeyError` when absent; for the
`shp` format the nested `['shp']` lookup raises `KeyError` when the sub-key is
absent, or `TypeError` when the value is a plain string. -/
def get_import_url (env : Env) (resource : Resource) (mapping : Mapping) :
    Except PyErr String :=
  match lookupKey mapping (lower resource.format) with
  | none => .error (.keyError (lower resource.format))
  | some afile =>
    if lower resource.format == "shp" then
      match afile with
      | .single _ => .error .typeError
      | .submap es =>
        match lookupKey es "shp" with
        | none => .error (.keyError "shp")
        | some p => .ok (env.base_import_url ++ p)
    else
      .ok (env.base_import_url ++ afile.asPathString)

/-- Lines 110-122: `get_import_file_date(import_file)`.
On 404: warn, return `None`.  Otherwise read the `last-modified` header; when
the header is missing the `KeyError` is caught and logged, after which
`return date_modified` references a never-assigned local, raising
`UnboundLocalError`. -/
def get_import_file_date (env : Env) (import_file : String) :
    List Event × Except PyErr (Option Int) :=
  let head := env.head import_file
  if head.status_code == 404 then
    ([.headRequest import_file,
      .logged .warning ("Resource is missing: " ++ import_file)], .ok none)
  else
    match head.lastModified with
    | some d => ([.headRequest import_file], .ok (some d))
    | none =>
      ([.headRequest import_file,
        .logged .error ("Could not determine last modified date of " ++ import_file)],
       .error .unboundLocal)

/-- Lines 131-136 of `out_of_date`: the resource's reference timestamp —
stored `last_modified` if truthy, else stored `created` if truthy, else
`datetime.now()`. -/
def resource_reference_time (env : Env) (resource : Resource) : Int :=
  match resource.last_modified with
  | some t => t
  | none =>
    match resource.created with
    | some t => t
    | none => env.now

/-- Lines 124-141: `out_of_date(resource, import_file)`. -/
def out_of_date (env : Env) (resource : Resource) (import_file : String) :
    List Event × Except PyErr Bool :=
  match get_import_file_date env import_file with
  | (ev, .error e) => (ev, .error e)
  | (ev, .ok none) => (ev, .ok false)
  | (ev, .ok (some date_modified)) =>
    (ev, .ok (decide (resource_reference_time env resource < date_modified) || env.force))

/-- Write a file: overwrite the entry when the path already exists, else
append a new entry. -/
def setFile (fs : FS) (p : Path) (c : String) : FS :=
  if fs.any (fun q => q.1 == p) then
    fs.map (fun q => if q.1 == p then (p, c) else q)
  else
    fs ++ [(p, c)]

/-- Lines 49-64: `download_temp_file(resource_path, file_name)`.  A GET is
issued; on status 200 the body is written to `file_name` and `True` returned
(the `text/xml` branch differs only in the write mode), otherwise `False`.
The returned trace records the GET. -/
def download_temp_file (env : Env) (resource_path : String) (file_name : Path)
    (fs : FS) : List Event × FS × Bool :=
  match env.get resource_path with
  | some content => ([.getRequest resource_path], setFile fs file_name content, true)
  | none => ([.getRequest resource_path], fs, false)

/-- Lines 67-69 of `upload_file_to_resource`: the upload filename —
`name.format`, overwritten with `name.format.zip` when the format is the
bundle format. -/
def upload_filename (resource : Resource) : String :=
  if lower resource.format == "shp" then
    resource.name ++ "." ++ resource.format ++ ".zip"
  else
    resource.name ++ "." ++ resource.format

/-- Lines 66-76: `upload_file_to_resource(resource, file_object)`.  Sets the
upload filename, stamps `last_modified` to now, calls `resource_update`; a
`CKANAPIError` is caught and its message logged. -/
def upload_file_to_resource (env : Env) (resource : Resource) : List Event :=
  [.resourceUpdate { resource with last_modified := some env.now } (upload_filename resource)] ++
    (match env.updErr resource.name with
     | some msg => [.logged .error msg]
     | none => [])

/-- The files `os.walk(dir)` yields: every regular file strictly under
`dir`. -/
def walkFiles (fs : FS) (dir : Path) : FS :=
  fs.filter (fun q => dir.isPrefixOf q.1 && q.1 != dir)

/-- `os.walk` yields each file by its name within its directory; with paths
as component lists that is the last component. -/
def Path.basename (p : Path) : String := p.getLastD ""

/-- Lines 91-93: the entries `zip.write(os.path.join(root, file), file)` adds
while walking `dir` — one regular-file entry per staged file, archived flat
under its basename.  No directory entries are ever written. -/
def zipOfDir (fs : FS) (dir : Path) : List ZipEntry :=
  (walkFiles fs dir).map (fun q => ZipEntry.file (Path.basename q.1) q.2)

/-- Opaque byte encoding of a zip archive, used only as the on-disk content
of the written `.zip` file (never inspected). -/
def zipSerialize (entries : List ZipEntry) : String := toString (repr entries)

/-- Lines 83-87: the per-sub-format download loop of `import_shapefile`.
The boolean success flag of `download_temp_file` is discarded, exactly as in
the source. -/
def stage_shapefiles (env : Env) (resource : Resource) (dir : Path) :
    List (String × String) → FS → List Event × FS
  | [], fs => ([], fs)
  | (shape_format, shape_location) :: rest, fs =>
    match download_temp_file env (env.base_import_url ++ shape_location)
        (dir ++ [resource.name ++ "." ++ shape_format]) fs with
    | (ev, fs', _ok) =>
      match stage_shapefiles env resource dir rest fs' with
      | (ev', fs'') => (ev ++ ev', fs'')

/-- Lines 78-97: `import_shapefile(resource, mapping)`.  Stages every
sub-file of `mapping['shp']` into `temp_data/<name>_shp/`, zips the walked
directory flat into `temp_data/<name>.shp.zip`, and uploads the archive.
`mapping['shp']` raises `KeyError` when absent and `.iteritems()` on a plain
string raises `AttributeError`. -/
def import_shapefile (env : Env) (resource : Resource) (mapping : Mapping)
    (fs : FS) : List Event × FS × Except PyErr Unit :=
  let shape_destination_dir : Path := ["temp_data", resource.name ++ "_shp"]
  match lookupKey mapping "shp" with
  | none => ([], fs, .error (.keyError "shp"))
  | some (.single _) => ([], fs, .error .attributeError)
  | some (.submap entries) =>
    match stage_shapefiles env resource shape_destination_dir entries fs with
    | (ev, fs1) =>
      let zip_filename : Path := ["temp_data", resource.name ++ ".shp.zip"]
      let zentries := zipOfDir fs1 shape_destination_dir
      (ev ++ [.zipCreate zip_filename zentries] ++ upload_file_to_resource env resource,
       setFile fs1 zip_filename (zipSerialize zentries), .ok ())

/-- Lines 143-152: `perform_import(resource, mapping)`.  Logs, then either
runs the bundle path, or GETs the single source URL and uploads the raw
stream (the body is uploaded whatever the GET's status code). -/
def perform_import (env : Env) (resource : Resource) (mapping : Mapping)
    (fs : FS) : List Event × FS × Except PyErr Unit :=
  let ev0 : List Event :=
    [.logged .info ("updating resource " ++ resource.name ++ ":" ++ resource.format)]
  if lower resource.format == "shp" then
    match import_shapefile env resource mapping fs with
    | (ev, fs', r) => (ev0 ++ ev, fs', r)
  else
    match get_import_url env resource mapping with
    | .error e => (ev0, fs, .error e)
    | .ok url =>
      (ev0 ++ [.getRequest url] ++ upload_file_to_resource env resource, fs, .ok ())

/-- Lines 177-182, the tail of `main_job`'s loop body: resolve the import
URL, check staleness, and when stale either log the dry-run line or run
`perform_import`. -/
def process_resource (env : Env) (resource : Resource) (mapping : Mapping)
    (fs : FS) : List Event × FS × Except PyErr Unit :=
  match get_import_url env resource mapping with
  | .error e => ([], fs, .error e)
  | .ok import_file =>
    match out_of_date env resource import_file with
    | (ev, .error e) => (ev, fs, .error e)
    | (ev, .ok false) => (ev, fs, .ok ())
    | (ev, .ok true) =>
      if env.debug then
        (ev ++ [.logged .info ("Would refresh " ++ resource.url)], fs, .ok ())
      else
        match perform_import env resource mapping fs with
        | (ev', fs', r) => (ev ++ ev', fs', r)

/-- Lines 172-175: `[res for res in package['resources'] if
res['format'].lower() == resource_format][0]`, as the head of the filtered
list (`none` models the `IndexError` of `[][0]`). -/
def select_resource (package : Package) (resource_format : String) : Option Resource :=
  (package.resources.filter (fun res => lower res.format == resource_format)).head?

/-- Lines 164-170: the placeholder resource created by
`ckan.action.resource_create` for a mapped format with no existing resource.
The remote echoes the record it stored; CKAN stamps `created` with the
current time. -/
def new_resource (env : Env) (package : Package) (resource_format : String) : Resource :=
  { name := package.name ++ ":" ++ resource_format
    format := resource_format
    url := "http://example.com"
    last_modified := some env.now
    created := some env.now }

/-- Lines 162-182: one iteration of `main_job`'s loop over the mapped
formats: create a placeholder when the format has no existing resource
(lower-cased), else select the first matching resource, then process it. -/
def main_job_step (env : Env) (package : Package) (existing_formats : List String)
    (mapping : Mapping) (resource_format : String) (fs : FS) :
    List Event × FS × Except PyErr Unit :=
  if !existing_formats.contains resource_format then
    let resource := new_resource env package resource_format
    match process_resource env resource mapping fs with
    | (ev, fs', r) =>
      (.resourceCreate package.id "http://example.com" resource_format resource.name env.now
         :: ev, fs', r)
  else
    match select_resource package resource_format with
    | none => ([], fs, .error .indexError)
    | some resource => process_resource env resource mapping fs

/-- The `for resource_format in resources_mapping:` loop of `main_job`; an
uncaught exception aborts the remaining iterations. -/
def main_job_loop (env : Env) (package : Package) (existing_formats : List String)
    (mapping : Mapping) : List String → FS → List Event × FS × Except PyErr Unit
  | [], fs => ([], fs, .ok ())
  | rf :: rest, fs =>
    match main_job_step env package existing_formats mapping rf fs with
    | (ev, fs', .error e) => (ev, fs', .error e)
    | (ev, fs', .ok ()) =>
      match main_job_loop env package existing_formats mapping rest fs' with
      | (ev', fs'', r) => (ev ++ ev', fs'', r)

/-- Lines 154-182: `main_job(dataset, resources_mapping)`.  `package_show`;
on `NotFound` log and return; else compute the lower-cased existing formats
once and loop over the mapping's keys. -/
def main_job (env : Env) (dataset : String) (resources_mapping : Mapping)
    (fs : FS) : List Event × FS × Except PyErr Unit :=
  match env.pkgs dataset with
  | none =>
    ([.packageShow dataset, .logged .error ("dataset not found: " ++ dataset)], fs, .ok ())
  | some package =>
    let existing_formats := package.resources.map (fun res => lower res.format)
    match main_job_loop env package existing_formats resources_mapping
        (resources_mapping.map (fun e => e.1)) fs with
    | (ev, fs', r) => (.packageShow dataset :: ev, fs', r)

/-- Lines 187-189: the `for dataset, resources_mapping in mapping.iteritems()`
loop; an uncaught exception from one `main_job` aborts the loop. -/
def run_driver_loop (env : Env) :
    List (String × Mapping) → FS → List Event × FS × Except PyErr Unit
  | [], fs => ([], fs, .ok ())
  | (dataset, resources_mapping) :: rest, fs =>
    match main_job env dataset resources_mapping fs with
    | (ev, fs', .error e) => (ev, fs', .error e)
    | (ev, fs', .ok ()) =>
      match run_driver_loop env rest fs' with
      | (ev', fs'', r) => (ev ++ ev', fs'', r)

/-- Lines 184-189: the top-level driver.  `if single_dataset and
mapping[single_dataset]:` — when `single_dataset` is truthy the subscript may
raise `KeyError`; when the looked-up entry is falsy (empty) the condition is
false and the `else` branch iterates every dataset. -/
def run_driver (env : Env) (single_dataset : Option String)
    (mapping : List (String × Mapping)) (fs : FS) :
    List Event × FS × Except PyErr Unit :=
  match single_dataset with
  | none => run_driver_loop env mapping fs
  | some ds =>
    if ds == "" then
      run_driver_loop env mapping fs
    else
      match lookupKey mapping ds with
      | none => ([], fs, .error (.keyError ds))
      | some entry =>
        if entry.isEmpty then
          run_driver_loop env mapping fs
        else
          main_job env ds entry fs

/-- Events produced only by `perform_import`'s body: acquisition (source
GETs, archive construction) and publish (remote resource update). -/
def Event.isSyncEffect : Event → Bool
  | .getRequest _ => true
  | .zipCreate _ _ => true
  | .resourceUpdate _ _ => true
  | _ => false

def Event.isZipCreate : Event → Bool
  | .zipCreate _ _ => true
  | _ => false

def Event.isLoggedEvent : Event → Bool
  | .logged _ _ => true
  | _ => false

def Event.isResourceUpdate : Event → Bool
  | .resourceUpdate _ _ => true
  | _ => false

/-! ### Concrete fixtures for witnesses and counterexamples -/

/-- A base environment for concrete instantiations: every probe answers 200
with a parseable `last-modified` of 5, downloads and `resource_update` never
fail, clock at 0, no flags. -/
def baseEnv : Env :=
  { pkgs := fun _ => none
    head := fun _ => ⟨200, some 5⟩
    get := fun _ => none
    updErr := fun _ => none
    base_import_url := "http://gis"
    force := false
    debug := false
    now := 0 }

def resCsv : Resource := ⟨"water", "csv", "http://u", some 3, none⟩

def resNoStamps : Resource := ⟨"water", "csv", "http://u", none, none⟩

def mapCsv : Mapping := [("csv", .single "/data/water.csv")]

def envMissingHeader : Env := { baseEnv with head := fun _ => ⟨200, none⟩ }

def envNotFound : Env := { baseEnv with head := fun _ => ⟨404, none⟩, force := true }

def envFutureSource : Env := { baseEnv with head := fun _ => ⟨200, some 200⟩, now := 100 }

def resShpUpper : Resource := ⟨"water", "SHP", "http://u", none, none⟩

def mapShp : Mapping := [("shp", .submap [("shp", "/roads.shp"), ("dbf", "/roads.dbf")])]

def resShp : Resource := ⟨"roads", "shp", "http://u", some 0, none⟩

/-- Downloads succeed for both sub-files of `mapShp`. -/
def envFullGet : Env :=
  { baseEnv with
    get := fun u =>
      if u == "http://gis/roads.shp" then some "SHPDATA"
      else if u == "http://gis/roads.dbf" then some "DBFDATA"
      else none }

/-- The `.dbf` sub-file download answers non-200. -/
def envPartialGet : Env :=
  { baseEnv with
    get := fun u => if u == "http://gis/roads.shp" then some "SHPDATA" else none }

def mapTwoDatasets : List (String × Mapping) :=
  [("ds1", []), ("ds2", [("csv", .single "/data/ds2.csv")])]

def pkgEmpty : Package := ⟨"pid", "water", []⟩

/-- Dry-run environment around `pkgEmpty`. -/
def envDryRun : Env :=
  { baseEnv with
    pkgs := fun d => if d == "water" then some pkgEmpty else none
    debug := true }

def resCsvUpper : Resource := ⟨"water:csv", "CSV", "http://u1", some 0, none⟩

def resCsvDup : Resource := ⟨"other", "csv", "http://u2", some 0, none⟩

/-- A package holding two resources whose formats both lower to `csv`. -/
def pkgDup : Package := ⟨"pid", "water", [resCsvUpper, resCsvDup]⟩

/-- A live (non-dry-run) forced sync environment around `pkgDup`. -/
def envSync : Env :=
  { baseEnv with
    pkgs := fun d => if d == "water" then some pkgDup else none
    force := true
    now := 7 }

end GisImport

namespace GisImport

/-! ### Helper lemmas -/

theorem string_append_left_cancel {a b c : String} (h : a ++ b = a ++ c) : b = c := by
  have h2 : (a ++ b).data = (a ++ c).data := by rw [h]
  rw [String.data_append, String.data_append] at h2
  exact String.ext (List.append_cancel_left h2)

theorem head_beq_404_eq_false {env : Env} {u : String}
    (h : (env.head u).status_code ≠ 404) :
    ((env.head u).status_code == 404) = false :=
  beq_eq_false_iff_ne.mpr h

theorem get_import_file_date_of_header {env : Env} {u : String} {t : Int}
    (h404 : (env.head u).status_code ≠ 404)
    (hlm : (env.head u).lastModified = some t) :
    get_import_file_date env u = ([.headRequest u], .ok (some t)) := by
  unfold get_import_file_date
  simp [head_beq_404_eq_false h404, hlm]

theorem get_import_file_date_of_missing {env : Env} {u : String}
    (h404 : (env.head u).status_code ≠ 404)
    (hlm : (env.head u).lastModified = none) :
    get_import_file_date env u =
      ([.headRequest u,
        .logged .error ("Could not determine last modified date of " ++ u)],
       .error .unboundLocal) := by
  unfold get_import_file_date
  simp [head_beq_404_eq_false h404, hlm]

/-! ### C1 -/

/-- Claim C1: whenever the HEAD probe of the source URL yields a parseable
last-modified timestamp `t`, `out_of_date` returns `true` iff `t` is strictly
greater than the resource's reference timestamp (stored `last_modified`, else
stored `created`, else the current time, all naive) or `force` is set. -/
theorem C1_out_of_date_iff (env : Env) (resource : Resource) (import_file : String)
    (t : Int)
    (h404 : (env.head import_file).status_code ≠ 404)
    (hlm : (env.head import_file).lastModified = some t) :
    (out_of_date env resource import_file).2 = Except.ok true ↔
      (resource_reference_time env resource < t ∨ env.force = true) := by
  unfold out_of_date
  rw [get_import_file_date_of_header h404 hlm]
  simp

theorem C1_witness :
    (out_of_date baseEnv resCsv "http://gis/data/water.csv").2 = Except.ok true :=
  (C1_out_of_date_iff baseEnv resCsv "http://gis/data/water.csv" 5 (by decide) rfl).mpr
    (Or.inl (by decide))

/-! ### C2 -/

/-- Claim C2: when the probe succeeds (not 404) but carries no last-modified
header, an error is logged and the sync for the resource is skipped:
`out_of_date` never reports the resource as needing sync (it raises
`UnboundLocalError`), and processing the resource performs no acquisition or
publish effect. -/
theorem C2_missing_header_skips_sync (env : Env) (resource : Resource)
    (mapping : Mapping) (fs : FS) (u : String)
    (hu : get_import_url env resource mapping = .ok u)
    (h404 : (env.head u).status_code ≠ 404)
    (hlm : (env.head u).lastModified = none) :
    (out_of_date env resource u).2 ≠ Except.ok true
    ∧ Event.logged .error ("Could not determine last modified date of " ++ u)
        ∈ (process_resource env resource mapping fs).1
    ∧ (process_resource env resource mapping fs).2.2 = .error .unboundLocal
    ∧ ∀ ev ∈ (process_resource env resource mapping fs).1, ev.isSyncEffect = false := by
  have hoo : out_of_date env resource u =
      ([.headRequest u,
        .logged .error ("Could not determine last modified date of " ++ u)],
       .error .unboundLocal) := by
    unfold out_of_date
    rw [get_import_file_date_of_missing h404 hlm]
  have hp : process_resource env resource mapping fs =
      ([.headRequest u,
        .logged .error ("Could not determine last modified date of " ++ u)],
       fs, .error .unboundLocal) := by
    unfold process_resource
    rw [hu]
    simp only [hoo]
  refine ⟨by simp [hoo], by simp [hp], by simp [hp], ?_⟩
  intro ev hev
  rw [hp] at hev
  simp at hev
  rcases hev with h | h <;> simp [h, Event.isSyncEffect]

theorem C2_witness :
    (process_resource envMissingHeader resCsv mapCsv []).2.2 = .error .unboundLocal :=
  (C2_missing_header_skips_sync envMissingHeader resCsv mapCsv []
    "http://gis/data/water.csv" rfl (by decide) rfl).2.2.1

/-! ### C3 -/

/-- Claim C3: when the probe returns 404, `out_of_date` logs a warning and
returns `false` — no exception — whatever the rest of the environment,
including `force` being set. -/
theorem C3_not_found_is_fresh (env : Env) (resource : Resource) (u : String)
    (h404 : (env.head u).status_code = 404) :
    out_of_date env resource u =
      ([.headRequest u, .logged .warning ("Resource is missing: " ++ u)],
       .ok false) := by
  unfold out_of_date get_import_file_date
  simp [h404]

theorem C3_witness :
    out_of_date envNotFound resCsv "http://gis/data/water.csv" =
      ([.headRequest "http://gis/data/water.csv",
        .logged .warning ("Resource is missing: http://gis/data/water.csv")],
       .ok false) :=
  C3_not_found_is_fresh envNotFound resCsv "http://gis/data/water.csv" rfl

/-! ### C4 -/

/-- Claim C4 is false as stated: a resource with no stored timestamps is
compared against `datetime.now()`, so a remote timestamp in the strict future
of the local clock (here 200 vs. a clock at 100) makes `out_of_date` return
`true` even though `force` is off. -/
theorem C4_counterexample :
    (out_of_date envFutureSource resNoStamps "http://gis/data/water.csv").2 =
      Except.ok true := rfl

/-- Claim C4 (amended): for a resource with neither stored `last_modified`
nor `created`, and a probe reporting timestamp `t`, `out_of_date` returns
`true` iff `t` is strictly later than the current time or `force` is set —
so it returns `false` unless `force` is set or the source reports a
future-dated timestamp. -/
theorem C4_amended_no_stamps (env : Env) (resource : Resource) (u : String) (t : Int)
    (hlm : resource.last_modified = none)
    (hcr : resource.created = none)
    (h404 : (env.head u).status_code ≠ 404)
    (ht : (env.head u).lastModified = some t) :
    (out_of_date env resource u).2 = Except.ok true ↔
      (env.now < t ∨ env.force = true) := by
  unfold out_of_date
  rw [get_import_file_date_of_header h404 ht]
  simp [resource_reference_time, hlm, hcr]

theorem C4_witness :
    (out_of_date envFutureSource resNoStamps "http://u").2 = Except.ok true :=
  (C4_amended_no_stamps envFutureSource resNoStamps "http://u" 200 rfl rfl
    (by decide) rfl).mpr (Or.inl (by decide))

/-! ### C9 -/

/-- Claim C9: `upload_file_to_resource` computes the upload filename as
`name.format` from the resource's fields, except when the format lowers to
the bundle format `shp`, in which case the archive suffix is appended,
giving `name.format.zip`; the `resource_update` call carries exactly that
filename. -/
theorem C9_upload_filename_spec (env : Env) (resource : Resource) :
    (upload_file_to_resource env resource).head? =
      some (.resourceUpdate { resource with last_modified := some env.now }
        (upload_filename resource))
    ∧ (lower resource.format = "shp" →
        upload_filename resource = resource.name ++ "." ++ resource.format ++ ".zip")
    ∧ (lower resource.format ≠ "shp" →
        upload_filename resource = resource.name ++ "." ++ resource.format) := by
  refine ⟨?_, ?_, ?_⟩
  · unfold upload_file_to_resource
    cases h : env.updErr resource.name <;> simp [h]
  · intro h
    simp [upload_filename, h]
  · intro h
    simp [upload_filename, beq_eq_false_iff_ne.mpr h]

theorem C9_witness : upload_filename resShpUpper = "water.SHP.zip" :=
  (C9_upload_filename_spec baseEnv resShpUpper).2.1 (by decide)

/-! ### C5 -/

/-- Claim C5 fails on the code: requesting single dataset `ds1`, whose
mapping entry is empty (falsy), makes the guard `single_dataset and
mapping[single_dataset]` false, so the driver falls into the all-datasets
loop and invokes `main_job` for `ds2` as well (each `main_job` invocation is
visible as its initial `package_show` call). -/
theorem C5_empty_entry_runs_all_datasets :
    run_driver baseEnv (some "ds1") mapTwoDatasets [] =
      ([.packageShow "ds1", .logged .error "dataset not found: ds1",
        .packageShow "ds2", .logged .error "dataset not found: ds2"], [], .ok ())
    ∧ Event.packageShow "ds2" ∈ (run_driver baseEnv (some "ds1") mapTwoDatasets []).1 :=
  ⟨rfl, by decide⟩

/-! ### Filesystem lemmas for the bundle acquirer -/

theorem setFile_of_not_mem {fs : FS} {p : Path} {c : String}
    (h : fs.any (fun q => q.1 == p) = false) :
    setFile fs p c = fs ++ [(p, c)] := by
  unfold setFile
  simp [h]

theorem walkFiles_append (fs gs : FS) (dir : Path) :
    walkFiles (fs ++ gs) dir = walkFiles fs dir ++ walkFiles gs dir :=
  List.filter_append _ _

theorem isPrefixOf_self_append (l t : List String) : l.isPrefixOf (l ++ t) = true := by
  induction l with
  | nil => simp [List.isPrefixOf]
  | cons a l ih => simp [List.isPrefixOf, ih]

theorem append_singleton_ne {α : Type} (l : List α) (x : α) : l ++ [x] ≠ l := by
  intro h
  have := congrArg List.length h
  simp at this

theorem staged_cond_true (dir : Path) (x : String) :
    (dir.isPrefixOf (dir ++ [x]) && (dir ++ [x] != dir)) = true := by
  rw [isPrefixOf_self_append]
  simp [append_singleton_ne]

theorem mem_walkFiles {fs : FS} {dir : Path} {q : Path × String} :
    q ∈ walkFiles fs dir ↔ q ∈ fs ∧ dir.isPrefixOf q.1 = true ∧ q.1 ≠ dir := by
  unfold walkFiles
  rw [List.mem_filter]
  simp [and_assoc]

theorem any_key_eq_false_of_walk_nil {fs : FS} {dir : Path} {x : String}
    (h : walkFiles fs dir = []) :
    fs.any (fun q => q.1 == dir ++ [x]) = false := by
  rw [List.any_eq_false]
  intro q hq
  simp only [beq_iff_eq]
  intro hx
  have hmem : q ∈ walkFiles fs dir :=
    mem_walkFiles.mpr ⟨hq, by rw [hx]; exact isPrefixOf_self_append dir [x],
      by rw [hx]; exact append_singleton_ne dir x⟩
  rw [h] at hmem
  exact absurd hmem (List.not_mem_nil q)

/-- Staging two sub-files into a fresh directory appends exactly the two
downloaded files, in mapping order, and issues one GET per sub-file. -/
theorem stage_shapefiles_two (env : Env) (res : Resource) (dir : Path)
    (A pA cA B pB cB : String) (fs : FS)
    (hgA : env.get (env.base_import_url ++ pA) = some cA)
    (hgB : env.get (env.base_import_url ++ pB) = some cB)
    (hA : fs.any (fun q => q.1 == dir ++ [res.name ++ "." ++ A]) = false)
    (hB : fs.any (fun q => q.1 == dir ++ [res.name ++ "." ++ B]) = false)
    (hABp : dir ++ [res.name ++ "." ++ A] ≠ dir ++ [res.name ++ "." ++ B]) :
    stage_shapefiles env res dir [(A, pA), (B, pB)] fs =
      ([.getRequest (env.base_import_url ++ pA),
        .getRequest (env.base_import_url ++ pB)],
       fs ++ [(dir ++ [res.name ++ "." ++ A], cA),
              (dir ++ [res.name ++ "." ++ B], cB)]) := by
  have hB2 : (fs ++ [(dir ++ [res.name ++ "." ++ A], cA)]).any
      (fun q => q.1 == dir ++ [res.name ++ "." ++ B]) = false := by
    rw [List.any_append]
    simp [hB, beq_eq_false_iff_ne.mpr hABp]
  unfold stage_shapefiles download_temp_file
  rw [hgA]
  simp only []
  rw [setFile_of_not_mem hA]
  unfold stage_shapefiles download_temp_file
  rw [hgB]
  simp only []
  rw [setFile_of_not_mem hB2]
  simp [stage_shapefiles, List.append_assoc]

/-- Staging when the second sub-file's fetch answers non-200: the failed
download writes nothing, its boolean result is discarded, and staging
continues normally. -/
theorem stage_shapefiles_two_fail (env : Env) (res : Resource) (dir : Path)
    (A pA cA B pB : String) (fs : FS)
    (hgA : env.get (env.base_import_url ++ pA) = some cA)
    (hgB : env.get (env.base_import_url ++ pB) = none)
    (hA : fs.any (fun q => q.1 == dir ++ [res.name ++ "." ++ A]) = false) :
    stage_shapefiles env res dir [(A, pA), (B, pB)] fs =
      ([.getRequest (env.base_import_url ++ pA),
        .getRequest (env.base_import_url ++ pB)],
       fs ++ [(dir ++ [res.name ++ "." ++ A], cA)]) := by
  unfold stage_shapefiles download_temp_file
  rw [hgA]
  simp only []
  rw [setFile_of_not_mem hA]
  unfold stage_shapefiles download_temp_file
  rw [hgB]
  simp [stage_shapefiles]

theorem zip_not_under_dir (n : String) :
    (["temp_data", n ++ "_shp"] : Path).isPrefixOf ["temp_data", n ++ ".shp.zip"] = false := by
  have h2 : ((n ++ "_shp") == (n ++ ".shp.zip")) = false :=
    beq_eq_false_iff_ne.mpr (fun h => absurd (string_append_left_cancel h) (by decide))
  simp [List.isPrefixOf, h2]

theorem walkFiles_staged_pair (dir : Path) (x y cx cy : String) :
    walkFiles [(dir ++ [x], cx), (dir ++ [y], cy)] dir =
      [(dir ++ [x], cx), (dir ++ [y], cy)] := by
  unfold walkFiles
  simp only [List.filter_cons, List.filter_nil]
  rw [staged_cond_true, staged_cond_true]
  simp

theorem walkFiles_staged_one (dir : Path) (x cx : String) :
    walkFiles [(dir ++ [x], cx)] dir = [(dir ++ [x], cx)] := by
  unfold walkFiles
  simp only [List.filter_cons, List.filter_nil]
  rw [staged_cond_true]
  simp

theorem walkFiles_not_under (dir : Path) (p : Path) (c : String)
    (h : dir.isPrefixOf p = false) :
    walkFiles [(p, c)] dir = [] := by
  unfold walkFiles
  simp [List.filter_cons, h]

/-! ### C7 -/

/-- Claim C7: for a bundle mapping with exactly the sub-formats `A` and `B`,
with both fetches succeeding and a fresh staging area, `import_shapefile`
stages exactly the two downloaded files in the per-resource staging
directory `temp_data/<name>_shp/` and produces exactly one archive whose
entries are exactly those two staged files, as top-level file entries under
their staged names, with no directory entries. -/
theorem C7_bundle_two_files (env : Env) (res : Resource) (mapping : Mapping)
    (fs : FS) (A B pA pB cA cB : String)
    (hm : lookupKey mapping "shp" = some (.submap [(A, pA), (B, pB)]))
    (hAB : A ≠ B)
    (hgA : env.get (env.base_import_url ++ pA) = some cA)
    (hgB : env.get (env.base_import_url ++ pB) = some cB)
    (hfresh : walkFiles fs ["temp_data", res.name ++ "_shp"] = [])
    (hzip : fs.any (fun q => q.1 == ["temp_data", res.name ++ ".shp.zip"]) = false) :
    walkFiles (import_shapefile env res mapping fs).2.1 ["temp_data", res.name ++ "_shp"] =
      [(["temp_data", res.name ++ "_shp", res.name ++ "." ++ A], cA),
       (["temp_data", res.name ++ "_shp", res.name ++ "." ++ B], cB)]
    ∧ (import_shapefile env res mapping fs).1.filter Event.isZipCreate =
      [.zipCreate ["temp_data", res.name ++ ".shp.zip"]
        [.file (res.name ++ "." ++ A) cA, .file (res.name ++ "." ++ B) cB]]
    ∧ ∀ p es, Event.zipCreate p es ∈ (import_shapefile env res mapping fs).1 →
        ∀ a, ZipEntry.dir a ∉ es := by
  have hnAB : res.name ++ "." ++ A ≠ res.name ++ "." ++ B :=
    fun h => hAB (string_append_left_cancel h)
  have hABp : (["temp_data", res.name ++ "_shp"] : Path) ++ [res.name ++ "." ++ A] ≠
      (["temp_data", res.name ++ "_shp"] : Path) ++ [res.name ++ "." ++ B] := by
    simp [hnAB]
  have hA := any_key_eq_false_of_walk_nil (x := res.name ++ "." ++ A) hfresh
  have hB := any_key_eq_false_of_walk_nil (x := res.name ++ "." ++ B) hfresh
  have hstage := stage_shapefiles_two env res ["temp_data", res.name ++ "_shp"]
    A pA cA B pB cB fs hgA hgB hA hB hABp
  have hwalk1 : walkFiles
      (fs ++ [((["temp_data", res.name ++ "_shp"] : Path) ++ [res.name ++ "." ++ A], cA),
              ((["temp_data", res.name ++ "_shp"] : Path) ++ [res.name ++ "." ++ B], cB)])
      ["temp_data", res.name ++ "_shp"] =
      [((["temp_data", res.name ++ "_shp"] : Path) ++ [res.name ++ "." ++ A], cA),
       ((["temp_data", res.name ++ "_shp"] : Path) ++ [res.name ++ "." ++ B], cB)] := by
    rw [walkFiles_append, hfresh, walkFiles_staged_pair]
    simp
  have hzent : zipOfDir
      (fs ++ [((["temp_data", res.name ++ "_shp"] : Path) ++ [res.name ++ "." ++ A], cA),
              ((["temp_data", res.name ++ "_shp"] : Path) ++ [res.name ++ "." ++ B], cB)])
      ["temp_data", res.name ++ "_shp"] =
      [.file (res.name ++ "." ++ A) cA, .file (res.name ++ "." ++ B) cB] := by
    unfold zipOfDir
    rw [hwalk1]
    rfl
  have hany2 : (fs ++ [((["temp_data", res.name ++ "_shp"] : Path) ++ [res.name ++ "." ++ A], cA),
      ((["temp_data", res.name ++ "_shp"] : Path) ++ [res.name ++ "." ++ B], cB)]).any
      (fun q => q.1 == ["temp_data", res.name ++ ".shp.zip"]) = false := by
    rw [List.any_append]
    simp only [hzip, Bool.false_or]
    simp
  have himp : import_shapefile env res mapping fs =
      ([.getRequest (env.base_import_url ++ pA), .getRequest (env.base_import_url ++ pB)]
         ++ [.zipCreate ["temp_data", res.name ++ ".shp.zip"]
              [.file (res.name ++ "." ++ A) cA, .file (res.name ++ "." ++ B) cB]]
         ++ upload_file_to_resource env res,
       (fs ++ [((["temp_data", res.name ++ "_shp"] : Path) ++ [res.name ++ "." ++ A], cA),
               ((["temp_data", res.name ++ "_shp"] : Path) ++ [res.name ++ "." ++ B], cB)])
         ++ [(["temp_data", res.name ++ ".shp.zip"],
              zipSerialize [.file (res.name ++ "." ++ A) cA, .file (res.name ++ "." ++ B) cB])],
       .ok ()) := by
    unfold import_shapefile
    rw [hm]
    simp only []
    rw [hstage]
    simp only []
    rw [hzent, setFile_of_not_mem hany2]
  refine ⟨?_, ?_, ?_⟩
  · rw [himp]
    simp only []
    rw [walkFiles_append, hwalk1, walkFiles_not_under _ _ _ (zip_not_under_dir res.name)]
    simp
  · rw [himp]
    simp only []
    unfold upload_file_to_resource
    cases h : env.updErr res.name <;>
      simp [List.filter_append, Event.isZipCreate, List.filter_cons]
  · intro p es hmem a hdir
    have hf : Event.zipCreate p es ∈
        (import_shapefile env res mapping fs).1.filter Event.isZipCreate :=
      List.mem_filter.mpr ⟨hmem, rfl⟩
    rw [himp] at hf
    simp only [] at hf
    revert hf
    unfold upload_file_to_resource
    cases h : env.updErr res.name <;>
      · intro hf
        simp [List.filter_append, Event.isZipCreate, List.filter_cons] at hf
        rcases hf with ⟨_, hes⟩
        subst hes
        simp at hdir

theorem C7_witness :
    (import_shapefile envFullGet resShp mapShp []).1.filter Event.isZipCreate =
      [.zipCreate ["temp_data", "roads.shp.zip"]
        [.file "roads.shp" "SHPDATA", .file "roads.dbf" "DBFDATA"]] :=
  (C7_bundle_two_files envFullGet resShp mapShp [] "shp" "dbf" "/roads.shp" "/roads.dbf"
    "SHPDATA" "DBFDATA" rfl (by decide) rfl rfl rfl rfl).2.1

/-! ### C6 -/

/-- Claim C6 fails on the code: with the `.dbf` sub-fetch answering non-200,
`import_shapefile` logs nothing at all, finishes successfully, and still
publishes (uploads) the — now incomplete — archive; the failure is neither
logged nor treated as a failed run. -/
theorem C6_counterexample :
    (import_shapefile envPartialGet resShp mapShp []).1.all
        (fun e => !e.isLoggedEvent) = true
    ∧ (import_shapefile envPartialGet resShp mapShp []).2.2 = .ok ()
    ∧ (import_shapefile envPartialGet resShp mapShp []).1.any
        Event.isResourceUpdate = true :=
  ⟨rfl, rfl, rfl⟩

/-- Claim C6 (amended): a failed (non-200) fetch of an individual sub-file
is not retried (exactly one GET is issued for it), but the failure is
silently ignored rather than logged or treated as a failed run: the
bundle import completes successfully, archives only the successfully fetched
sub-files, and uploads that archive; sibling resources and datasets are
unaffected (the run returns normally). -/
theorem C6_amended_failed_subfetch (env : Env) (res : Resource) (mapping : Mapping)
    (fs : FS) (A B pA pB cA : String)
    (hm : lookupKey mapping "shp" = some (.submap [(A, pA), (B, pB)]))
    (hgA : env.get (env.base_import_url ++ pA) = some cA)
    (hgB : env.get (env.base_import_url ++ pB) = none)
    (hupd : env.updErr res.name = none)
    (hfresh : walkFiles fs ["temp_data", res.name ++ "_shp"] = [])
    (hzip : fs.any (fun q => q.1 == ["temp_data", res.name ++ ".shp.zip"]) = false) :
    ((import_shapefile env res mapping fs).1.filter
        (fun e => e == .getRequest (env.base_import_url ++ pB))).length = 1
    ∧ (import_shapefile env res mapping fs).1.all (fun e => !e.isLoggedEvent) = true
    ∧ (import_shapefile env res mapping fs).2.2 = .ok ()
    ∧ (import_shapefile env res mapping fs).1.filter Event.isZipCreate =
        [.zipCreate ["temp_data", res.name ++ ".shp.zip"]
          [.file (res.name ++ "." ++ A) cA]]
    ∧ Event.resourceUpdate { res with last_modified := some env.now } (upload_filename res)
        ∈ (import_shapefile env res mapping fs).1 := by
  have hpp : env.base_import_url ++ pA ≠ env.base_import_url ++ pB := by
    intro h
    rw [h, hgB] at hgA
    cases hgA
  have hA := any_key_eq_false_of_walk_nil (x := res.name ++ "." ++ A) hfresh
  have hstage := stage_shapefiles_two_fail env res ["temp_data", res.name ++ "_shp"]
    A pA cA B pB fs hgA hgB hA
  have hwalk1 : walkFiles
      (fs ++ [((["temp_data", res.name ++ "_shp"] : Path) ++ [res.name ++ "." ++ A], cA)])
      ["temp_data", res.name ++ "_shp"] =
      [((["temp_data", res.name ++ "_shp"] : Path) ++ [res.name ++ "." ++ A], cA)] := by
    rw [walkFiles_append, hfresh, walkFiles_staged_one]
    simp
  have hzent : zipOfDir
      (fs ++ [((["temp_data", res.name ++ "_shp"] : Path) ++ [res.name ++ "." ++ A], cA)])
      ["temp_data", res.name ++ "_shp"] =
      [.file (res.name ++ "." ++ A) cA] := by
    unfold zipOfDir
    rw [hwalk1]
    rfl
  have hany2 : (fs ++ [((["temp_data", res.name ++ "_shp"] : Path) ++
      [res.name ++ "." ++ A], cA)]).any
      (fun q => q.1 == ["temp_data", res.name ++ ".shp.zip"]) = false := by
    rw [List.any_append]
    simp only [hzip, Bool.false_or]
    simp
  have himp : import_shapefile env res mapping fs =
      ([.getRequest (env.base_import_url ++ pA), .getRequest (env.base_import_url ++ pB)]
         ++ [.zipCreate ["temp_data", res.name ++ ".shp.zip"]
              [.file (res.name ++ "." ++ A) cA]]
         ++ upload_file_to_resource env res,
       (fs ++ [((["temp_data", res.name ++ "_shp"] : Path) ++ [res.name ++ "." ++ A], cA)])
         ++ [(["temp_data", res.name ++ ".shp.zip"],
              zipSerialize [.file (res.name ++ "." ++ A) cA])],
       .ok ()) := by
    unfold import_shapefile
    rw [hm]
    simp only []
    rw [hstage]
    simp only []
    rw [hzent, setFile_of_not_mem hany2]
  have hup : upload_file_to_resource env res =
      [.resourceUpdate { res with last_modified := some env.now } (upload_filename res)] := by
    unfold upload_file_to_resource
    rw [hupd]
    simp
  have hbeqAB : (Event.getRequest (env.base_import_url ++ pA) ==
      Event.getRequest (env.base_import_url ++ pB)) = false :=
    beq_eq_false_iff_ne.mpr (fun h => hpp (Event.getRequest.inj h))
  refine ⟨?_, ?_, ?_, ?_, ?_⟩
  · rw [himp]
    simp only []
    rw [hup]
    simp [List.filter_cons, List.filter_append, hbeqAB]
  · rw [himp]
    simp only []
    rw [hup]
    simp [Event.isLoggedEvent]
  · rw [himp]
  · rw [himp]
    simp only []
    rw [hup]
    simp [List.filter_append, List.filter_cons, Event.isZipCreate]
  · rw [himp]
    simp only []
    rw [hup]
    simp

theorem C6_witness :
    ((import_shapefile envPartialGet resShp mapShp []).1.filter
        (fun e => e == .getRequest "http://gis/roads.dbf")).length = 1 :=
  (C6_amended_failed_subfetch envPartialGet resShp mapShp [] "shp" "dbf"
    "/roads.shp" "/roads.dbf" "SHPDATA" rfl rfl rfl rfl rfl rfl).1

/-! ### Orchestrator lemmas -/

theorem get_import_file_date_of_404 {env : Env} {u : String}
    (h : (env.head u).status_code = 404) :
    get_import_file_date env u =
      ([.headRequest u, .logged .warning ("Resource is missing: " ++ u)], .ok none) := by
  unfold get_import_file_date
  simp [h]

theorem out_of_date_events_eq (env : Env) (r : Resource) (u : String) :
    (out_of_date env r u).1 = (get_import_file_date env u).1 := by
  unfold out_of_date
  rcases h : get_import_file_date env u with ⟨ev, e | (_ | t)⟩ <;> rfl

theorem head_mem_gifd (env : Env) (u : String) :
    Event.headRequest u ∈ (get_import_file_date env u).1 := by
  unfold get_import_file_date
  cases hc : ((env.head u).status_code == 404) <;>
    cases hl : (env.head u).lastModified <;> simp [hc, hl]

theorem gifd_events_shape (env : Env) (u : String) :
    ∀ e ∈ (get_import_file_date env u).1,
      e = .headRequest u ∨ ∃ lvl msg, e = .logged lvl msg := by
  intro e he
  unfold get_import_file_date at he
  revert he
  cases hc : ((env.head u).status_code == 404) <;>
    cases hl : (env.head u).lastModified <;>
      (intro he
       simp [hc, hl] at he
       first
         | exact Or.inl he
         | (rcases he with rfl | rfl
            · exact Or.inl rfl
            · exact Or.inr ⟨_, _, rfl⟩))

theorem gifd_events_not_sync (env : Env) (u : String) :
    ∀ e ∈ (get_import_file_date env u).1, e.isSyncEffect = false := by
  intro e he
  rcases gifd_events_shape env u e he with rfl | ⟨lvl, msg, rfl⟩ <;> rfl

theorem ood_events_not_sync (env : Env) (r : Resource) (u : String) :
    ∀ e ∈ (out_of_date env r u).1, e.isSyncEffect = false := by
  rw [out_of_date_events_eq]
  exact gifd_events_not_sync env u

theorem lookupKey_mem {α : Type} {m : List (String × α)} {k : String} {v : α}
    (h : (k, v) ∈ m) : ∃ w, lookupKey m k = some w ∧ (k, w) ∈ m := by
  induction m with
  | nil => cases h
  | cons p rest ih =>
    cases hc : (p.1 == k)
    · have h' : (k, v) ∈ rest := by
        rcases List.mem_cons.mp h with h0 | h0
        · exfalso
          rw [← h0] at hc
          simp at hc
        · exact h0
      obtain ⟨w, hw, hm⟩ := ih h'
      refine ⟨w, ?_, List.mem_cons_of_mem _ hm⟩
      unfold lookupKey at hw ⊢
      rw [List.find?_cons_of_neg _ (by simp [hc])]
      exact hw
    · have hk : p.1 = k := beq_iff_eq.mp hc
      refine ⟨p.2, ?_, ?_⟩
      · unfold lookupKey
        rw [List.find?_cons_of_pos rest hc]
        rfl
      · rw [← hk]
        exact List.mem_cons_self _ _

theorem get_import_url_ok (env : Env) (r : Resource) (m : Mapping)
    (hk : ∃ v, (lower r.format, v) ∈ m)
    (hshp : ∀ v, ("shp", v) ∈ m →
      ∃ es, v = MappingValue.submap es ∧ ∃ pp, lookupKey es "shp" = some pp) :
    ∃ u, get_import_url env r m = .ok u := by
  obtain ⟨v, hv⟩ := hk
  obtain ⟨w, hw, hwm⟩ := lookupKey_mem hv
  unfold get_import_url
  rw [hw]
  cases hc : (lower r.format == "shp")
  · simp only [hc, Bool.false_eq_true, if_false]
    exact ⟨_, rfl⟩
  · have hkey : lower r.format = "shp" := beq_iff_eq.mp hc
    rw [hkey] at hwm
    obtain ⟨es, hes, pp, hpp⟩ := hshp w hwm
    subst hes
    simp only [hc, if_true]
    rw [hpp]
    exact ⟨_, rfl⟩

theorem select_resource_mem {pkg : Package} {rf : String} {rsel : Resource}
    (h : select_resource pkg rf = some rsel) :
    rsel ∈ pkg.resources ∧ lower rsel.format = rf := by
  unfold select_resource at h
  have hm : rsel ∈ pkg.resources.filter (fun res => lower res.format == rf) :=
    List.mem_of_mem_head? (by simp [h])
  have h2 := List.mem_filter.mp hm
  exact ⟨h2.1, beq_iff_eq.mp h2.2⟩

theorem select_resource_of_contains (pkg : Package) (rf : String)
    (h : (pkg.resources.map (fun res => lower res.format)).contains rf = true) :
    ∃ rsel, select_resource pkg rf = some rsel ∧ lower rsel.format = rf := by
  have hm : rf ∈ pkg.resources.map (fun res => lower res.format) := List.elem_iff.mp h
  obtain ⟨res, hres, hf⟩ := List.mem_map.mp hm
  have hne : pkg.resources.filter (fun r2 => lower r2.format == rf) ≠ [] := by
    intro hnil
    have := List.filter_eq_nil_iff.mp hnil res hres
    simp [hf] at this
  obtain ⟨rsel, hsel⟩ : ∃ rsel, select_resource pkg rf = some rsel := by
    unfold select_resource
    cases hh : (pkg.resources.filter (fun r2 => lower r2.format == rf)).head?
    · exact absurd (List.head?_eq_none_iff.mp hh) hne
    · exact ⟨_, rfl⟩
  exact ⟨rsel, hsel, (select_resource_mem hsel).2⟩

theorem out_of_date_ok (env : Env) (r : Resource) (u : String)
    (hh : ∀ v, (env.head v).status_code ≠ 404 → (env.head v).lastModified ≠ none) :
    ∃ b, (out_of_date env r u).2 = .ok b := by
  by_cases hc : (env.head u).status_code = 404
  · refine ⟨false, ?_⟩
    unfold out_of_date
    rw [get_import_file_date_of_404 hc]
  · obtain ⟨t, ht⟩ : ∃ t, (env.head u).lastModified = some t := by
      rcases hl : (env.head u).lastModified with _ | t
      · exact absurd hl (hh u hc)
      · exact ⟨t, rfl⟩
    refine ⟨decide (resource_reference_time env r < t) || env.force, ?_⟩
    unfold out_of_date
    rw [get_import_file_date_of_header hc ht]

theorem process_resource_debug (env : Env) (r : Resource) (m : Mapping) (fs : FS)
    (hdbg : env.debug = true) (u : String)
    (hu : get_import_url env r m = .ok u)
    (hok : ∃ b, (out_of_date env r u).2 = .ok b) :
    ∃ ev, process_resource env r m fs = (ev, fs, .ok ())
      ∧ Event.headRequest u ∈ ev
      ∧ ∀ e ∈ ev, e.isSyncEffect = false := by
  obtain ⟨b, hb⟩ := hok
  rcases hood : out_of_date env r u with ⟨ev0, r2⟩
  have hr2 : r2 = .ok b := by
    rw [hood] at hb
    exact hb
  subst hr2
  have hev0 : ∀ e ∈ ev0, e.isSyncEffect = false := by
    intro e he
    apply ood_events_not_sync env r u
    rw [hood]
    exact he
  have hev0h : Event.headRequest u ∈ ev0 := by
    have h2 := head_mem_gifd env u
    rw [← out_of_date_events_eq env r u, hood] at h2
    exact h2
  unfold process_resource
  rw [hu]
  simp only [hood]
  cases b
  · exact ⟨ev0, rfl, hev0h, hev0⟩
  · refine ⟨ev0 ++ [.logged .info ("Would refresh " ++ r.url)], by simp [hdbg], ?_, ?_⟩
    · exact List.mem_append_left _ hev0h
    · intro e he
      rcases List.mem_append.mp he with h | h
      · exact hev0 e h
      · simp at h
        subst h
        rfl

theorem main_job_step_debug (env : Env) (pkg : Package) (m : Mapping) (rf : String) (fs : FS)
    (hdbg : env.debug = true)
    (hkeys : ∀ p ∈ m, lower p.1 = p.1)
    (hshp : ∀ v, ("shp", v) ∈ m →
      ∃ es, v = MappingValue.submap es ∧ ∃ pp, lookupKey es "shp" = some pp)
    (hh : ∀ v, (env.head v).status_code ≠ 404 → (env.head v).lastModified ≠ none)
    (hrf : ∃ v, (rf, v) ∈ m) :
    ∃ ev, main_job_step env pkg (pkg.resources.map (fun res => lower res.format)) m rf fs =
        (ev, fs, .ok ())
      ∧ ((pkg.resources.map (fun res => lower res.format)).contains rf = false →
          Event.resourceCreate pkg.id "http://example.com" rf (pkg.name ++ ":" ++ rf) env.now ∈ ev
          ∧ ∃ u, get_import_url env (new_resource env pkg rf) m = .ok u
              ∧ Event.headRequest u ∈ ev)
      ∧ ∀ e ∈ ev, e.isSyncEffect = false := by
  obtain ⟨v, hvm⟩ := hrf
  have hlrf : lower rf = rf := hkeys (rf, v) hvm
  unfold main_job_step
  cases hc : (pkg.resources.map (fun res => lower res.format)).contains rf
  · obtain ⟨u, hu⟩ : ∃ u, get_import_url env (new_resource env pkg rf) m = .ok u := by
      apply get_import_url_ok
      · exact ⟨v, by rw [show (new_resource env pkg rf).format = rf from rfl, hlrf]; exact hvm⟩
      · exact hshp
    obtain ⟨ev, hpr, hhead, hslim⟩ :=
      process_resource_debug env (new_resource env pkg rf) m fs hdbg u hu
        (out_of_date_ok env _ u hh)
    refine ⟨.resourceCreate pkg.id "http://example.com" rf (pkg.name ++ ":" ++ rf) env.now
        :: ev, ?_, ?_, ?_⟩
    · simp only [hc, Bool.not_false, if_true]
      rw [hpr]
      rfl
    · intro _
      refine ⟨List.mem_cons_self _ _, u, hu, List.mem_cons_of_mem _ hhead⟩
    · intro e he
      rcases List.mem_cons.mp he with rfl | h
      · rfl
      · exact hslim e h
  · obtain ⟨rsel, hsel, hfmt⟩ := select_resource_of_contains pkg rf hc
    obtain ⟨u, hu⟩ : ∃ u, get_import_url env rsel m = .ok u := by
      apply get_import_url_ok
      · exact ⟨v, by rw [hfmt]; exact hvm⟩
      · exact hshp
    obtain ⟨ev, hpr, hhead, hslim⟩ :=
      process_resource_debug env rsel m fs hdbg u hu (out_of_date_ok env _ u hh)
    refine ⟨ev, ?_, ?_, ?_⟩
    · simp only [hc, Bool.not_true, if_false]
      rw [hsel]
      exact hpr
    · intro hcon
      cases hcon
    · exact hslim

theorem main_job_loop_debug (env : Env) (pkg : Package) (m : Mapping)
    (hdbg : env.debug = true)
    (hkeys : ∀ p ∈ m, lower p.1 = p.1)
    (hshp : ∀ v, ("shp", v) ∈ m →
      ∃ es, v = MappingValue.submap es ∧ ∃ pp, lookupKey es "shp" = some pp)
    (hh : ∀ v, (env.head v).status_code ≠ 404 → (env.head v).lastModified ≠ none) :
    ∀ (fmts : List String) (fs : FS), (∀ rf ∈ fmts, ∃ v, (rf, v) ∈ m) →
    ∃ ev, main_job_loop env pkg (pkg.resources.map (fun res => lower res.format)) m fmts fs =
        (ev, fs, .ok ())
      ∧ (∀ rf ∈ fmts, (pkg.resources.map (fun res => lower res.format)).contains rf = false →
          Event.resourceCreate pkg.id "http://example.com" rf (pkg.name ++ ":" ++ rf) env.now ∈ ev
          ∧ ∃ u, get_import_url env (new_resource env pkg rf) m = .ok u
              ∧ Event.headRequest u ∈ ev)
      ∧ ∀ e ∈ ev, e.isSyncEffect = false := by
  intro fmts
  induction fmts with
  | nil =>
    intro fs _
    exact ⟨[], rfl, by simp, by simp⟩
  | cons rf rest ih =>
    intro fs hks
    obtain ⟨ev1, hstep, hcr, hns⟩ :=
      main_job_step_debug env pkg m rf fs hdbg hkeys hshp hh (hks rf (by simp))
    obtain ⟨ev2, hloop, hcr2, hns2⟩ := ih fs (fun g hg => hks g (by simp [hg]))
    refine ⟨ev1 ++ ev2, ?_, ?_, ?_⟩
    · unfold main_job_loop
      rw [hstep]
      simp only []
      rw [hloop]
    · intro g hg hgc
      rcases List.mem_cons.mp hg with rfl | hg'
      · obtain ⟨hcre, u, hu, hhd⟩ := hcr hgc
        exact ⟨List.mem_append_left _ hcre, u, hu, List.mem_append_left _ hhd⟩
      · obtain ⟨hcre, u, hu, hhd⟩ := hcr2 g hg' hgc
        exact ⟨List.mem_append_right _ hcre, u, hu, List.mem_append_right _ hhd⟩
    · intro e he
      rcases List.mem_append.mp he with h | h
      · exact hns e h
      · exact hns2 e h

/-! ### C8 -/

/-- Claim C8: with dry-run set (and the run proceeding normally: lower-case
mapping keys, a well-formed `shp` entry, probes that always yield a
timestamp or 404), `main_job` still performs the remote write for every
mapped format lacking an existing resource of that lower-cased format — the
placeholder `resource_create` happens and the HEAD staleness probe is still
issued — while dry-run suppresses exactly `perform_import`: no acquisition
GET, no archive creation, no `resource_update`, and the local filesystem is
untouched. -/
theorem C8_dry_run_still_creates (env : Env) (dataset : String) (m : Mapping) (fs : FS)
    (pkg : Package)
    (hdbg : env.debug = true)
    (hp : env.pkgs dataset = some pkg)
    (hkeys : ∀ p ∈ m, lower p.1 = p.1)
    (hshp : ∀ v, ("shp", v) ∈ m →
      ∃ es, v = MappingValue.submap es ∧ ∃ pp, lookupKey es "shp" = some pp)
    (hh : ∀ v, (env.head v).status_code ≠ 404 → (env.head v).lastModified ≠ none) :
    (main_job env dataset m fs).2.1 = fs
    ∧ (main_job env dataset m fs).2.2 = .ok ()
    ∧ (∀ rf v, (rf, v) ∈ m →
        (pkg.resources.map (fun res => lower res.format)).contains rf = false →
          Event.resourceCreate pkg.id "http://example.com" rf (pkg.name ++ ":" ++ rf) env.now
            ∈ (main_job env dataset m fs).1
          ∧ ∃ u, get_import_url env (new_resource env pkg rf) m = .ok u
              ∧ Event.headRequest u ∈ (main_job env dataset m fs).1)
    ∧ ∀ e ∈ (main_job env dataset m fs).1, e.isSyncEffect = false := by
  obtain ⟨ev, hloop, hcr, hns⟩ :=
    main_job_loop_debug env pkg m hdbg hkeys hshp hh (m.map (fun e => e.1)) fs
      (by
        intro rf hrf
        obtain ⟨⟨k, v⟩, hkv, hk⟩ := List.mem_map.mp hrf
        exact ⟨v, by rw [← hk]; exact hkv⟩)
  have hmj : main_job env dataset m fs = (.packageShow dataset :: ev, fs, .ok ()) := by
    unfold main_job
    rw [hp]
    simp only []
    rw [hloop]
  refine ⟨by rw [hmj], by rw [hmj], ?_, ?_⟩
  · intro rf v hv hc
    obtain ⟨hcre, u, hu, hhd⟩ := hcr rf (List.mem_map.mpr ⟨(rf, v), hv, rfl⟩) hc
    rw [hmj]
    exact ⟨List.mem_cons_of_mem _ hcre, u, hu, List.mem_cons_of_mem _ hhd⟩
  · intro e he
    rw [hmj] at he
    rcases List.mem_cons.mp he with rfl | h
    · rfl
    · exact hns e h

theorem C8_witness :
    Event.resourceCreate "pid" "http://example.com" "csv" "water:csv" 0
      ∈ (main_job envDryRun "water" mapCsv []).1 :=
  ((C8_dry_run_still_creates envDryRun "water" mapCsv [] pkgEmpty rfl rfl
      (by decide)
      (by
        intro v hv
        simp [mapCsv] at hv)
      (by
        intro u h
        simp [envDryRun, baseEnv])).2.2.1
    "csv" (.single "/data/water.csv") (by decide) (by decide)).1

/-! ### Which resource do `resource_update` events carry? -/

theorem upload_events_update (env : Env) (r : Resource) :
    ∀ e ∈ upload_file_to_resource env r, ∀ r' fn, e = .resourceUpdate r' fn →
      r' = { r with last_modified := some env.now } := by
  intro e he r' fn heq
  unfold upload_file_to_resource at he
  revert he
  cases h : env.updErr r.name <;>
    (intro he
     simp [h] at he)
  · rw [he] at heq
    injection heq with h1 h2
    exact h1.symm
  · rcases he with he | he
    · rw [he] at heq
      injection heq with h1 h2
      exact h1.symm
    · rw [he] at heq
      exact Event.noConfusion heq

theorem stage_events_get (env : Env) (r : Resource) (dir : Path) :
    ∀ (es : List (String × String)) (fs : FS),
      ∀ e ∈ (stage_shapefiles env r dir es fs).1, ∃ u, e = .getRequest u := by
  intro es
  induction es with
  | nil =>
    intro fs e he
    simp [stage_shapefiles] at he
  | cons p rest ih =>
    rcases p with ⟨sf, sl⟩
    intro fs e he
    rcases hd : download_temp_file env (env.base_import_url ++ sl)
        (dir ++ [r.name ++ "." ++ sf]) fs with ⟨ev1, fs1, ok1⟩
    rcases hs : stage_shapefiles env r dir rest fs1 with ⟨ev2, fs2⟩
    unfold stage_shapefiles at he
    simp only [hd] at he
    simp only [hs] at he
    simp at he
    rcases he with h | h
    · have hev1 : ev1 = [.getRequest (env.base_import_url ++ sl)] := by
        unfold download_temp_file at hd
        revert hd
        cases env.get (env.base_import_url ++ sl) <;>
          (intro hd
           cases hd
           rfl)
      rw [hev1] at h
      simp at h
      exact ⟨_, h⟩
    · apply ih fs1
      rw [hs]
      exact h

theorem import_shapefile_updates (env : Env) (r : Resource) (m : Mapping) (fs : FS) :
    ∀ e ∈ (import_shapefile env r m fs).1, ∀ r' fn, e = .resourceUpdate r' fn →
      r' = { r with last_modified := some env.now } := by
  intro e he r' fn heq
  unfold import_shapefile at he
  revert he
  cases hlk : lookupKey m "shp" with
  | none =>
    intro he
    simp at he
  | some v =>
    cases v with
    | single p =>
      intro he
      simp at he
    | submap entries =>
      rcases hst : stage_shapefiles env r ["temp_data", r.name ++ "_shp"] entries fs
        with ⟨ev1, fs1⟩
      intro he
      simp only [hst] at he
      simp at he
      rcases he with h | h | h
      · obtain ⟨u, hu⟩ := stage_events_get env r ["temp_data", r.name ++ "_shp"] entries fs e
          (by rw [hst]; exact h)
        rw [hu] at heq
        exact Event.noConfusion heq
      · rw [h] at heq
        exact Event.noConfusion heq
      · exact upload_events_update env r e h r' fn heq

theorem perform_import_updates (env : Env) (r : Resource) (m : Mapping) (fs : FS) :
    ∀ e ∈ (perform_import env r m fs).1, ∀ r' fn, e = .resourceUpdate r' fn →
      r' = { r with last_modified := some env.now } := by
  intro e he r' fn heq
  unfold perform_import at he
  revert he
  cases hfmt : (lower r.format == "shp")
  · cases hgu : get_import_url env r m with
    | error err =>
      intro he
      simp [hfmt, hgu] at he
      rw [he] at heq
      exact Event.noConfusion heq
    | ok url =>
      intro he
      simp [hfmt, hgu] at he
      rcases he with h | h | h
      · rw [h] at heq
        exact Event.noConfusion heq
      · rw [h] at heq
        exact Event.noConfusion heq
      · exact upload_events_update env r e h r' fn heq
  · rcases himp : import_shapefile env r m fs with ⟨ev1, fs1, rr⟩
    intro he
    simp [hfmt, himp] at he
    rcases he with h | h
    · rw [h] at heq
      exact Event.noConfusion heq
    · exact import_shapefile_updates env r m fs e (by rw [himp]; exact h) r' fn heq

theorem process_resource_updates (env : Env) (r : Resource) (m : Mapping) (fs : FS) :
    ∀ e ∈ (process_resource env r m fs).1, ∀ r' fn, e = .resourceUpdate r' fn →
      r' = { r with last_modified := some env.now } := by
  intro e he r' fn heq
  unfold process_resource at he
  revert he
  cases hgu : get_import_url env r m with
  | error err =>
    intro he
    simp at he
  | ok u =>
    rcases hood : out_of_date env r u with ⟨ev0, r2⟩
    have hev0 : ∀ e' ∈ ev0, e'.isSyncEffect = false := by
      intro e' h'
      apply ood_events_not_sync env r u
      rw [hood]
      exact h'
    have hnotupd : e ∈ ev0 → False := by
      intro h'
      have h2 := hev0 e h'
      rw [heq] at h2
      simp [Event.isSyncEffect] at h2
    rcases r2 with err | b
    · intro he
      simp [hood] at he
      exact absurd he hnotupd
    · cases b
      · intro he
        simp [hood] at he
        exact absurd he hnotupd
      · cases hdbg : env.debug
        · rcases hperf : perform_import env r m fs with ⟨ev1, fs1, rr⟩
          intro he
          simp [hood, hdbg, hperf] at he
          rcases he with h | h
          · exact absurd h hnotupd
          · exact perform_import_updates env r m fs e (by rw [hperf]; exact h) r' fn heq
        · intro he
          simp [hood, hdbg] at he
          rcases he with h | h
          · exact absurd h hnotupd
          · rw [h] at heq
            exact Event.noConfusion heq

theorem main_job_step_updates (env : Env) (pkg : Package) (ex : List String)
    (m : Mapping) (rf : String) (fs : FS) :
    ∀ e ∈ (main_job_step env pkg ex m rf fs).1, ∀ r' fn, e = .resourceUpdate r' fn →
      (ex.contains rf = false
        ∧ r' = { new_resource env pkg rf with last_modified := some env.now })
      ∨ (∃ rsel, select_resource pkg rf = some rsel
          ∧ r' = { rsel with last_modified := some env.now }) := by
  intro e he r' fn heq
  unfold main_job_step at he
  revert he
  cases hc : ex.contains rf
  · rcases hpr : process_resource env (new_resource env pkg rf) m fs with ⟨ev, fs', rr⟩
    intro he
    simp [hc, hpr] at he
    rcases he with h | h
    · rw [h] at heq
      exact Event.noConfusion heq
    · exact Or.inl ⟨rfl,
        process_resource_updates env _ m fs e (by rw [hpr]; exact h) r' fn heq⟩
  · cases hsel : select_resource pkg rf with
    | none =>
      intro he
      simp [hc, hsel] at he
    | some rsel =>
      intro he
      simp [hc, hsel] at he
      exact Or.inr ⟨rsel, rfl,
        process_resource_updates env rsel m fs e he r' fn heq⟩

theorem main_job_loop_updates (env : Env) (pkg : Package) (ex : List String) (m : Mapping) :
    ∀ (fmts : List String) (fs : FS),
      ∀ e ∈ (main_job_loop env pkg ex m fmts fs).1, ∀ r' fn, e = .resourceUpdate r' fn →
      ∃ rf ∈ fmts,
        (ex.contains rf = false
          ∧ r' = { new_resource env pkg rf with last_modified := some env.now })
        ∨ (∃ rsel, select_resource pkg rf = some rsel
            ∧ r' = { rsel with last_modified := some env.now }) := by
  intro fmts
  induction fmts with
  | nil =>
    intro fs e he
    simp [main_job_loop] at he
  | cons rf rest ih =>
    intro fs e he r' fn heq
    unfold main_job_loop at he
    revert he
    rcases hstep : main_job_step env pkg ex m rf fs with ⟨ev1, fs1, rr⟩
    rcases rr with err | _
    · intro he
      simp at he
      exact ⟨rf, by simp,
        main_job_step_updates env pkg ex m rf fs e (by rw [hstep]; exact he) r' fn heq⟩
    · rcases hloop : main_job_loop env pkg ex m rest fs1 with ⟨ev2, fs2, r3⟩
      intro he
      simp [hloop] at he
      rcases he with h | h
      · exact ⟨rf, by simp,
          main_job_step_updates env pkg ex m rf fs e (by rw [hstep]; exact h) r' fn heq⟩
      · obtain ⟨g, hg, hres⟩ := ih fs1 e (by rw [hloop]; exact h) r' fn heq
        exact ⟨g, by simp [hg], hres⟩

theorem main_job_updates (env : Env) (dataset : String) (m : Mapping) (fs : FS)
    (pkg : Package) (hp : env.pkgs dataset = some pkg) :
    ∀ e ∈ (main_job env dataset m fs).1, ∀ r' fn, e = .resourceUpdate r' fn →
      ∃ rf ∈ m.map (fun p => p.1),
        ((pkg.resources.map (fun res => lower res.format)).contains rf = false
          ∧ r' = { new_resource env pkg rf with last_modified := some env.now })
        ∨ (∃ rsel, select_resource pkg rf = some rsel
            ∧ r' = { rsel with last_modified := some env.now }) := by
  intro e he r' fn heq
  unfold main_job at he
  rw [hp] at he
  revert he
  rcases hloop : main_job_loop env pkg (pkg.resources.map fun res => lower res.format) m
      (m.map fun p => p.1) fs with ⟨ev, fs', rr⟩
  intro he
  simp [hloop] at he
  rcases he with h | h
  · rw [h] at heq
    exact Event.noConfusion heq
  · exact main_job_loop_updates env pkg _ m (m.map fun p => p.1) fs e
      (by rw [hloop]; exact h) r' fn heq

/-! ### C10 -/

/-- Claim C10: in any run of `main_job` over a dataset whose mapping keys
are lower-case, when several existing resources share the same lower-cased
format `f`, exactly the first of them in the package's resource list is
selected (`select_resource` returns it), and every `resource_update` the run
issues for a resource of lower-cased format `f` carries precisely that first
resource (with its freshly stamped `last_modified`) — the other matching
resources are untouched. -/
theorem C10_first_resource_only (env : Env) (dataset : String) (m : Mapping) (fs : FS)
    (pkg : Package) (f : String) (r₀ : Resource)
    (hp : env.pkgs dataset = some pkg)
    (hkeys : ∀ p ∈ m, lower p.1 = p.1)
    (hfirst : (pkg.resources.filter (fun res => lower res.format == f)).head? = some r₀) :
    select_resource pkg f = some r₀
    ∧ ∀ r' fn, Event.resourceUpdate r' fn ∈ (main_job env dataset m fs).1 →
        lower r'.format = f → r' = { r₀ with last_modified := some env.now } := by
  have hsel : select_resource pkg f = some r₀ := hfirst
  refine ⟨hsel, ?_⟩
  intro r' fn hmem hf
  obtain ⟨rf, hrf, hcase⟩ := main_job_updates env dataset m fs pkg hp _ hmem r' fn rfl
  have hlrf : lower rf = rf := by
    obtain ⟨⟨k, v⟩, hkv, hk⟩ := List.mem_map.mp hrf
    have h2 := hkeys (k, v) hkv
    simp only [] at hk
    rw [← hk]
    exact h2
  rcases hcase with ⟨hcon, hr'⟩ | ⟨rsel, hselr, hr'⟩
  · exfalso
    subst hr'
    have hrff : rf = f := by
      rw [← hlrf]
      exact hf
    subst hrff
    have hr0 := select_resource_mem hsel
    have hmem2 : rf ∈ pkg.resources.map (fun res => lower res.format) :=
      List.mem_map.mpr ⟨r₀, hr0.1, hr0.2⟩
    have hc2 : (pkg.resources.map (fun res => lower res.format)).contains rf = true :=
      List.elem_iff.mpr hmem2
    rw [hcon] at hc2
    cases hc2
  · subst hr'
    have hrsel := select_resource_mem hselr
    have hrff : rf = f := by
      rw [← hrsel.2]
      exact hf
    subst hrff
    rw [hsel] at hselr
    have : r₀ = rsel := Option.some.inj hselr
    rw [← this]

theorem C10_witness :
    ({ resCsvUpper with last_modified := some 7 } : Resource) =
      { resCsvUpper with last_modified := some 7 } :=
  (C10_first_resource_only envSync "water" mapCsv [] pkgDup "csv" resCsvUpper
      rfl (by decide) rfl).2
    { resCsvUpper with last_modified := some 7 } "water:csv.CSV"
    (by decide) (by decide)

end GisImport
